import Mathlib

/-!
Shallow embedding of the PyC2A Campbell Scientific binary-file decoder
(`PyC2A/cs_types.py`, `PyC2A/file_handler.py`, `PyC2A/camp2ascii.py`)
together with theorems settling the frozen specification claims.

Bytes are modelled as natural numbers (< 256 where it matters), machine
integers as `Nat`/`Int` with explicit arithmetic, and timestamps as integer
nanosecond offsets from the 1990-01-01T00:00:00 UTC epoch.  The IEEE-754
floating-point steps the source performs (the float64 product and float16
cast inside `FP2.from_bytes`, the int64-to-float64 conversion and float64
addition inside `NSEC.from_bytes`) are modelled exactly, as
round-to-nearest-ties-to-even on dyadic rationals; every value these
operations meet lies far inside the normal range of its format, so
overflow and subnormal behaviour cannot arise and the unbounded-exponent
rounding used here coincides with the IEEE semantics.
-/

/-! ### Exact models of the IEEE-754 roundings the source performs -/

/-- Fuel-driven binary length: `bitLenAux fuel n` is the number of binary
digits of `n` whenever `fuel ≥ n`. -/
def bitLenAux : ℕ → ℕ → ℕ
  | 0, _ => 0
  | fuel + 1, n => if n = 0 then 0 else bitLenAux fuel (n / 2) + 1

/-- Number of binary digits of `n` (0 for 0). -/
def bitLen (n : ℕ) : ℕ := bitLenAux n n

/-- Round `m / 2^k` to the nearest integer, ties to even. -/
def rshiftRHE (m k : ℕ) : ℕ :=
  if k = 0 then m
  else if 2 ^ (k - 1) < m % 2 ^ k then m / 2 ^ k + 1
  else if m % 2 ^ k < 2 ^ (k - 1) then m / 2 ^ k
  else if m / 2 ^ k % 2 = 0 then m / 2 ^ k else m / 2 ^ k + 1

/-- Round the dyadic `m * 2^e` to `prec` significant bits (round to
nearest, ties to even), returning the mantissa-exponent pair of the
result.  This is IEEE-754 rounding with unbounded exponent range, which
on the values reachable in this development (all far inside the normal
ranges of binary64 and binary16) coincides with the IEEE semantics. -/
def roundDyadic (prec : ℕ) (m : ℕ) (e : ℤ) : ℕ × ℤ :=
  if bitLen m ≤ prec then (m, e)
  else (rshiftRHE m (bitLen m - prec), e + (bitLen m - prec : ℕ))

/-- Value of a mantissa-exponent pair as a rational. -/
def dyadicToRat (p : ℕ × ℤ) : ℚ := (p.1 : ℚ) * 2 ^ p.2

/-- The float64 value of the Python literal `10**(-E)` for `E = 1, 2, 3`,
as the mantissa-exponent pair of the binary64 number nearest to
`10^(-E)`: `0.1 = 3602879701896397 * 2^(-55)`,
`0.01 = 5764607523034235 * 2^(-59)`,
`0.001 = 1152921504606847 * 2^(-60)`. -/
def f64_tenth : ℕ → ℕ × ℤ
  | 1 => (3602879701896397, -55)
  | 2 => (5764607523034235, -59)
  | 3 => (1152921504606847, -60)
  | _ => (1, 0)

/-- Round a nonnegative integer to the nearest binary64-representable
value (53-bit significand, ties to even): the exact value of
`np.float64(n)`, which is again an integer. -/
def f64intRound (n : ℕ) : ℕ :=
  (roundDyadic 53 n 0).1 * 2 ^ (roundDyadic 53 n 0).2.toNat

/-! ### `cs_types.py`: the FP2 proprietary 2-byte decimal float -/

/-- Result of decoding an `FP2` value: the three special encodings or an
exact rational value. -/
inductive FP2Val where
  | posInf
  | negInf
  | nan
  | val (q : ℚ)
deriving DecidableEq

/-- The magnitude `M * 10**(-E)` exactly as the source computes it and
stores it: for `E = 0`, `10**0` is the Python int 1 and the product is the
exact integer `M`; for `E >= 1`, `10**(-E)` is a float64 literal and the
product is one float64 multiplication (the integer `M < 2^13` converts to
float64 exactly); the result is then cast to IEEE half precision by the
`np.dtype(">f2")` constructor, i.e. rounded to an 11-bit significand,
nearest, ties to even.  The sign factor `(1 - 2*S)` is +1 or -1 and hence
exact in both formats, so it commutes with the roundings and is applied
outside this function.  Magnitudes lie in `{0} ∪ [10^-3, 2^13)`, inside
the normal range of both formats, so exponent-range effects cannot
occur. -/
def fp2_mag_pair (E M : ℕ) : ℕ × ℤ :=
  if E = 0 then roundDyadic 11 M 0
  else roundDyadic 11 (roundDyadic 53 (M * (f64_tenth E).1) (f64_tenth E).2).1
    (roundDyadic 53 (M * (f64_tenth E).1) (f64_tenth E).2).2

/-- Embedding of `FP2.from_bytes` from `cs_types.py`.  The source computes
`tmp = int.from_bytes(b, byteorder="little", signed=False)` — for a 2-byte
input this is `b0 + 256 * b1` — then `S = tmp >> 15`,
`E = (tmp & 0x6000) >> 13`, `M = tmp & 0x1fff`, matches the special
triples, and otherwise returns `np.dtype(">f2")((1 - 2*S)*M*10**(-E))`:
the value `(1 - 2S) * M * 10^(-E)` computed through the float64 product
and quantised to half precision, modelled exactly by
`fp2_mag_pair`. -/
def FP2.from_bytes (b0 b1 : ℕ) : FP2Val :=
  let tmp := b0 + 256 * b1
  let S := tmp >>> 15
  let E := (tmp &&& 0x6000) >>> 13
  let M := tmp &&& 0x1fff
  if S = 0 ∧ E = 0 ∧ M = 8191 then FP2Val.posInf
  else if S = 1 ∧ E = 0 ∧ M = 8191 then FP2Val.negInf
  else if S = 1 ∧ E = 0 ∧ M = 8190 then FP2Val.nan
  else FP2Val.val ((1 - 2 * (S : ℚ)) * dyadicToRat (fp2_mag_pair E M))

/-- Decoder following the claim's words (for comparison with the source):
the two bytes are read as a BIG-endian 16-bit word `256*b0 + b1` and then
the same sign/exponent/mantissa extraction and value map are applied. -/
def fp2_spec_be (b0 b1 : ℕ) : FP2Val :=
  let tmp := 256 * b0 + b1
  let S := tmp >>> 15
  let E := (tmp &&& 0x6000) >>> 13
  let M := tmp &&& 0x1fff
  if S = 0 ∧ E = 0 ∧ M = 8191 then FP2Val.posInf
  else if S = 1 ∧ E = 0 ∧ M = 8191 then FP2Val.negInf
  else if S = 1 ∧ E = 0 ∧ M = 8190 then FP2Val.nan
  else FP2Val.val ((1 - 2 * (S : ℚ)) * dyadicToRat (fp2_mag_pair E M))

/-- The `(S, E, M) ↦ value` map of the amended claim: the three special
encodings, otherwise `(1 - 2S) * M * 10^(-E)` quantised to IEEE half
precision through the source's float64 product. -/
def fp2_value (S E M : ℕ) : FP2Val :=
  if S = 0 ∧ E = 0 ∧ M = 8191 then FP2Val.posInf
  else if S = 1 ∧ E = 0 ∧ M = 8191 then FP2Val.negInf
  else if S = 1 ∧ E = 0 ∧ M = 8190 then FP2Val.nan
  else FP2Val.val ((1 - 2 * (S : ℚ)) * dyadicToRat (fp2_mag_pair E M))

/-! ### `cs_types.py`: the NSEC / SecNano proprietary 8-byte timestamp -/

/-- Little-endian word value of a byte list, as `int.from_bytes(b, "little")`
computes it. -/
def leWord : List ℕ → ℕ
  | [] => 0
  | b :: bs => b + 256 * leWord bs

/-- Embedding of `NSEC.from_bytes` from `cs_types.py`, returning the
decoded instant as a nanosecond offset from the 1990-01-01T00:00:00 UTC
epoch (the source returns `Timestamp("1990-01-01") + Timedelta(total,
unit="ns")`).  `S = int.from_bytes(b[:4], "little")`,
`NS = int.from_bytes(b[4:8], "little")`, and
`total = np.int64(S)*np.int64(1_000_000_000) + np.int64(NS)//1e6*1e6`:
the left summand is the exact int64 `S * 10^9` (below `2^62`, no
overflow); the right summand `np.int64(NS)//1e6*1e6` floor-divides the
float64 of `NS` by the float64 `1e6` and multiplies back — for every
32-bit `NS` both steps are exact and equal the integer
`(NS / 10^6) * 10^6` (the quotient is below `2^13` and the product below
`2^33`, and the true ratio is never within `10^-7` of crossing an
integer while the float division errs by less than `2^-40`).  Adding an
int64 to a float64 casts the int64 to float64 (rounding it to 53
significant bits) and then rounds the sum once more; both roundings are
modelled exactly by `f64intRound`, and the resulting float64 is an
integer, which `Timedelta(..., unit="ns")` takes over unchanged.  (The
source declares the staticmethod with a stray unused `self` parameter,
which does not affect the decode arithmetic.) -/
def NSEC.from_bytes (b : List ℕ) : ℤ :=
  let S := leWord (b.take 4)
  let NS := leWord ((b.drop 4).take 4)
  (f64intRound (f64intRound (S * 1000000000) + NS / 1000000 * 1000000) : ℤ)

/-! ### `cs_types.py`: the type registries -/

/-- The keys of `np_readable_type_registry` (the native-numeric dtypes that
numpy can decode in bulk). -/
def np_readable_names : List String :=
  ["IEEE4", "IEEE4B", "IEEE8", "IEEE8B", "Long", "UINT1", "UINT1B",
   "UINT2", "UINT2B", "UINT4", "UINT4B", "Bool8", "Bool8B", "ULONG",
   "LONG", "Boolean"]

/-- Membership test `d in np_readable_type_registry`. -/
def is_np_readable (d : String) : Bool := np_readable_names.contains d

/-- Byte width (`itemsize`) of each entry of `np_readable_type_registry`.
The source spells the unsigned dtypes `">ui1"`/`">ui2"`/`">ui4"`; the widths
are the ones the dtype names denote (1, 2 and 4 bytes). -/
def npReadableWidth (d : String) : Option ℕ :=
  if d = "IEEE4" ∨ d = "IEEE4B" then some 4
  else if d = "IEEE8" ∨ d = "IEEE8B" then some 8
  else if d = "Long" ∨ d = "LONG" ∨ d = "ULONG" then some 4
  else if d = "UINT1" ∨ d = "UINT1B" then some 1
  else if d = "UINT2" ∨ d = "UINT2B" then some 2
  else if d = "UINT4" ∨ d = "UINT4B" then some 4
  else if d = "Bool8" ∨ d = "Bool8B" then some 1
  else if d = "Boolean" then some 1
  else none

/-- Byte width of any registered dtype: the native registry plus the
proprietary types (`FP2.size = 2`, `NSEC.size = 8`, `SecNano ↦ NSEC`). -/
def dtype_itemsize (d : String) : Option ℕ :=
  match npReadableWidth d with
  | some w => some w
  | none =>
    if d = "FP2" then some 2
    else if d = "NSEC" ∨ d = "SecNano" then some 8
    else none

/-! ### `file_handler.py`: format handlers and `CampbellFile.__post_init__` -/

/-- The four recognised file formats. -/
inductive CSFmt where
  | TOB1
  | TOB2
  | TOB3
  | TOA5
deriving DecidableEq

/-- `header_size` attribute of the per-format handler classes. -/
def header_size : CSFmt → ℕ
  | CSFmt.TOB1 => 8
  | CSFmt.TOB2 => 8
  | CSFmt.TOB3 => 12
  | CSFmt.TOA5 => 0

/-- `footer_size` attribute of the per-format handler classes. -/
def footer_size : CSFmt → ℕ
  | CSFmt.TOB1 => 4
  | CSFmt.TOB2 => 4
  | CSFmt.TOB3 => 4
  | CSFmt.TOA5 => 0

/-- `strides` computed in `CampbellFile.__post_init__`: the per-column byte
widths looked up in the registry (`none` when some dtype is unregistered). -/
def stridesOf (dtypes : List String) : Option (List ℕ) :=
  dtypes.mapM dtype_itemsize

/-- `frame_data_size` from `CampbellFile.__post_init__`:
`frame_size - header_size - footer_size` (the source reaches the two sizes
through the format handler of `fmt`). -/
def frame_data_size (fmt : CSFmt) (frame_size : ℤ) : ℤ :=
  frame_size - header_size fmt - footer_size fmt

/-- `frame_nrows` from `CampbellFile.__post_init__`:
`frame_data_size // sum(strides)` with Python floor division. -/
def frame_nrows (fmt : CSFmt) (frame_size : ℤ) (dtypes : List String) : Option ℤ :=
  (stridesOf dtypes).map (fun ws => (frame_data_size fmt frame_size).fdiv (ws.sum : ℤ))

/-- `is_vector_readable` from `CampbellFile.__post_init__`: the source
compares the number of native-dtype columns against
`n_dtypes = len(set(file_dtypes))`, the number of DISTINCT dtype names. -/
def is_vector_readable (dtypes : List String) : Bool :=
  dtypes.countP (fun d => is_np_readable d) == dtypes.dedup.length

/-- The strategy test of `data_parser_factory` in `cs_types.py`:
`sum(is_np_readable) == len(is_np_readable)`, i.e. every column (duplicates
included) has a native dtype. -/
def factory_selects_vector (dtypes : List String) : Bool :=
  dtypes.countP (fun d => is_np_readable d) == dtypes.length

/-! ### Bit-extraction helper lemmas -/

theorem nat_and_8191 (n : ℕ) : n &&& 8191 = n % 8192 := by
  have h : (8191 : ℕ) = 2 ^ 13 - 1 := by norm_num
  have h2 : (8192 : ℕ) = 2 ^ 13 := by norm_num
  rw [h, h2, Nat.and_pow_two_sub_one_eq_mod]

theorem nat_shiftRight_15 (n : ℕ) : n >>> 15 = n / 32768 := by
  rw [Nat.shiftRight_eq_div_pow]

theorem nat_and_24576_shift (n : ℕ) : (n &&& 24576) >>> 13 = n / 8192 % 4 := by
  apply Nat.eq_of_testBit_eq
  intro i
  have hdiv : n / 8192 = n >>> 13 := by
    rw [Nat.shiftRight_eq_div_pow]
  have h4 : (4 : ℕ) = 2 ^ 2 := by norm_num
  rw [Nat.testBit_shiftRight, Nat.testBit_and, hdiv, h4, Nat.testBit_mod_two_pow,
    Nat.testBit_shiftRight]
  match i with
  | 0 => simp [show Nat.testBit 24576 13 = true from by decide]
  | 1 => simp [show Nat.testBit 24576 14 = true from by decide]
  | (j + 2) =>
    have hlt : (24576 : ℕ) < 2 ^ (13 + (j + 2)) := by
      calc (24576 : ℕ) < 2 ^ 15 := by norm_num
      _ ≤ 2 ^ (13 + (j + 2)) := Nat.pow_le_pow_right (by norm_num) (by omega)
    rw [Nat.testBit_lt_two_pow hlt]
    simp

/-! ### Claim C1: FP2 decoding -/

/-- Claim C1 (counterexample): `FP2.from_bytes` does NOT interpret its two
bytes as a big-endian 16-bit word.  On the byte pair `(0x00, 0x01)` the
big-endian reading required by the claim is the word 1, i.e. the encoding
`(S=0, E=0, M=1)` with value 1.0, but the source builds the word
little-endian and decodes 256.0. -/
theorem fp2_not_big_endian :
    FP2.from_bytes 0 1 = FP2Val.val 256 ∧ fp2_spec_be 0 1 = FP2Val.val 1 ∧
      FP2Val.val 256 ≠ FP2Val.val 1 := by
  have h256 : fp2_mag_pair 0 256 = (256, 0) := by decide
  have h1 : fp2_mag_pair 0 1 = (1, 0) := by decide
  refine ⟨?_, ?_, ?_⟩
  · norm_num [FP2.from_bytes, nat_shiftRight_15, nat_and_24576_shift, nat_and_8191,
      h256, dyadicToRat]
  · norm_num [fp2_spec_be, nat_shiftRight_15, nat_and_24576_shift, nat_and_8191,
      h1, dyadicToRat]
  · simp

/-- Claim C1 (amended): FP2 decoding interprets the bytes as a
LITTLE-endian 16-bit word with sign `S` = bit 15, decimal exponent
magnitude `E` = bits 14-13 and mantissa `M` = bits 12-0, returns +infinity
for `(0,0,8191)`, -infinity for `(1,0,8191)`, NaN for `(1,0,8190)` and
otherwise the value `(1 - 2S) * M * 10^(-E)` quantised to IEEE half
precision (through the float64 product for `E >= 1`): decoding the
little-endian byte pair of the word `S*2^15 + E*2^13 + M` yields exactly
the amended `(S,E,M) ↦ value` map `fp2_value`. -/
theorem fp2_from_bytes_layout (S E M : ℕ) (_hS : S < 2) (hE : E < 4) (hM : M < 8192) :
    FP2.from_bytes ((S * 32768 + E * 8192 + M) % 256) ((S * 32768 + E * 8192 + M) / 256) =
      fp2_value S E M := by
  have hw : (S * 32768 + E * 8192 + M) % 256 + 256 * ((S * 32768 + E * 8192 + M) / 256)
      = S * 32768 + E * 8192 + M := by omega
  have h1 : (S * 32768 + E * 8192 + M) >>> 15 = S := by
    rw [nat_shiftRight_15]; omega
  have h2 : ((S * 32768 + E * 8192 + M) &&& 24576) >>> 13 = E := by
    rw [nat_and_24576_shift]; omega
  have h3 : (S * 32768 + E * 8192 + M) &&& 8191 = M := by
    rw [nat_and_8191]; omega
  simp only [FP2.from_bytes, fp2_value]
  rw [hw, h1, h2, h3]

/-- Claim C1 (witness): the amended layout theorem applied at
`(S, E, M) = (0, 3, 1)`, the claim's 0.001 example: the little-endian
bytes of the word `3*8192 + 1` decode to the half-precision neighbour
`1049/2^20 = 0.00100040435791015625` of 0.001.  The extra conjuncts
evaluate the amended value map at the exactly representable `(0,0,1)`
(giving exactly 1) and at `(0,0,8190)`, whose integer magnitude 8190 the
half-precision cast rounds (tie to even) to 8192. -/
theorem fp2_from_bytes_layout_witness :
    ((0 : ℕ) < 2 ∧ (3 : ℕ) < 4 ∧ (1 : ℕ) < 8192) ∧
      FP2.from_bytes ((0 * 32768 + 3 * 8192 + 1) % 256) ((0 * 32768 + 3 * 8192 + 1) / 256) =
        fp2_value 0 3 1 ∧
      fp2_value 0 3 1 = FP2Val.val (1049 / 1048576) ∧
      fp2_value 0 0 1 = FP2Val.val 1 ∧
      fp2_value 0 0 8190 = FP2Val.val 8192 :=
  ⟨⟨by decide, by decide, by decide⟩,
    fp2_from_bytes_layout 0 3 1 (by decide) (by decide) (by decide),
    by
      have h : fp2_mag_pair 3 1 = (1049, -20) := by decide
      norm_num [fp2_value, h, dyadicToRat],
    by
      have h : fp2_mag_pair 0 1 = (1, 0) := by decide
      norm_num [fp2_value, h, dyadicToRat],
    by
      have h : fp2_mag_pair 0 8190 = (2048, 2) := by decide
      norm_num [fp2_value, h, dyadicToRat]⟩

/-! ### Claim C2: NSEC decoding -/

/-- Claim C2 (counterexample): the decoded instant is NOT
`epoch + S*10^9 + (NS/10^6)*10^6` nanoseconds exactly for every 8-byte
input.  For `S = 4*10^9`, `NS = 10^6` (bytes `00 28 6B EE 40 42 0F 00`)
the exact total `4000000000001000000` ns lies above `2^61`, where float64
spacing is 512 ns, so the source's int64 + float64 addition rounds it to
`4000000000000999936` ns. -/
theorem nsec_float64_rounding_counterexample :
    NSEC.from_bytes [0, 40, 107, 238, 64, 66, 15, 0] = 4000000000000999936 ∧
      (4000000000000999936 : ℤ) ≠ 4000000000 * 1000000000 + 1000000 :=
  ⟨by decide, by decide⟩

/-- Claim C2 (amended): `NSEC.from_bytes` reads `S` as the little-endian
unsigned 32-bit word in bytes 0-3 and `NS` as the little-endian unsigned
32-bit word in bytes 4-7 and returns the instant
`epoch + float64(float64(S*10^9) + (NS/10^6)*10^6)` nanoseconds — the
millisecond-quantised total, rounded through the source's
int64-to-float64 conversion and float64 addition, which equals the exact
`S*10^9 + (NS/10^6)*10^6` whenever that total is float64-representable;
in particular eight zero bytes decode to the epoch itself and
`01 00 00 00 00 00 00 00` decodes to one second past the epoch. -/
theorem nsec_from_bytes_spec :
    (∀ b0 b1 b2 b3 b4 b5 b6 b7 : ℕ,
      NSEC.from_bytes [b0, b1, b2, b3, b4, b5, b6, b7] =
        (f64intRound (f64intRound
            ((b0 + 256 * b1 + 65536 * b2 + 16777216 * b3) * 1000000000) +
          (b4 + 256 * b5 + 65536 * b6 + 16777216 * b7) / 1000000 * 1000000) : ℤ)) ∧
      NSEC.from_bytes [0, 0, 0, 0, 0, 0, 0, 0] = 0 ∧
      NSEC.from_bytes [1, 0, 0, 0, 0, 0, 0, 0] = 1000000000 := by
  refine ⟨?_, by decide, by decide⟩
  intro b0 b1 b2 b3 b4 b5 b6 b7
  show (f64intRound (f64intRound (leWord [b0, b1, b2, b3] * 1000000000) +
      leWord [b4, b5, b6, b7] / 1000000 * 1000000) : ℤ) = _
  have hS : leWord [b0, b1, b2, b3] = b0 + 256 * b1 + 65536 * b2 + 16777216 * b3 := by
    simp only [leWord]; ring
  have hN : leWord [b4, b5, b6, b7] = b4 + 256 * b5 + 65536 * b6 + 16777216 * b7 := by
    simp only [leWord]; ring
  rw [hS, hN]

/-! ### Claim C4: decode-strategy selection -/

/-- Claim C4 (code evaluated at the failing input): for the schema of two
`IEEE4B` columns the factory test of `data_parser_factory` does select the
vector path (every column dtype is native), but
`CampbellFile.is_vector_readable` is `false`, because the source compares
the count of native columns (2) with the number of DISTINCT dtype names (1). -/
theorem is_vector_readable_duplicate_bug :
    factory_selects_vector ["IEEE4B", "IEEE4B"] = true ∧
      is_vector_readable ["IEEE4B", "IEEE4B"] = false := by
  exact ⟨by decide, by decide⟩

/-! ### Claim C5: derived frame geometry -/

/-- Claim C5: for TOB2 and TOB3 schemas whose dtypes are all registered,
`frame_data_size = frame_size - header_size(fmt) - footer_size(fmt)` with
header size 8 for TOB2 and 12 for TOB3 and footer size 4 for both, and
`frame_nrows` is `frame_data_size` floor-divided by the sum of the
per-column byte widths. -/
theorem schema_frame_geometry (fmt : CSFmt) (frame_size : ℤ) (dtypes : List String)
    (ws : List ℕ) (hfmt : fmt = CSFmt.TOB2 ∨ fmt = CSFmt.TOB3)
    (hws : stridesOf dtypes = some ws) :
    frame_data_size fmt frame_size =
        frame_size - (if fmt = CSFmt.TOB3 then 12 else 8) - 4 ∧
      frame_nrows fmt frame_size dtypes =
        some ((frame_size - (if fmt = CSFmt.TOB3 then 12 else 8) - 4).fdiv (ws.sum : ℤ)) := by
  rcases hfmt with h | h <;> subst h <;>
    simp [frame_data_size, frame_nrows, header_size, footer_size, hws]

/-- Claim C5 (witness): the geometry theorem applied to the TOB3 example
header of the source comments (`frame_size = 984`, eleven `IEEE4B`
columns): the data region is `984 - 12 - 4 = 968` bytes and holds
`968 // 44 = 22` rows. -/
theorem schema_frame_geometry_witness :
    stridesOf (List.replicate 11 "IEEE4B") = some (List.replicate 11 4) ∧
      (frame_data_size CSFmt.TOB3 984 =
          (984 : ℤ) - (if CSFmt.TOB3 = CSFmt.TOB3 then 12 else 8) - 4 ∧
        frame_nrows CSFmt.TOB3 984 (List.replicate 11 "IEEE4B") =
          some (((984 : ℤ) - (if CSFmt.TOB3 = CSFmt.TOB3 then 12 else 8) - 4).fdiv
            ((List.replicate 11 (4 : ℕ)).sum : ℤ))) ∧
      frame_nrows CSFmt.TOB3 984 (List.replicate 11 "IEEE4B") = some 22 :=
  ⟨by decide,
    schema_frame_geometry CSFmt.TOB3 984 (List.replicate 11 "IEEE4B")
      (List.replicate 11 4) (Or.inr rfl) (by decide),
    by decide⟩

/-! ### `cs_types.py`: vector and scalar frame-data decoding (claim C3) -/

/-- Big-endian word value of a byte list.  Both decode paths hand each
field's bytes to the same big-endian registry dtype (`np.frombuffer` with
the per-column `>`-dtypes), so a decoded field is modelled as the
big-endian word of its bytes. -/
def beWord (bs : List ℕ) : ℕ := bs.foldl (fun acc b => 256 * acc + b) 0

/-- The `w` bytes of the data region starting at offset `off`
(`data[off : off + w]`). -/
def byteSlice (data : List ℕ) (off w : ℕ) : List ℕ := (data.drop off).take w

/-- Embedding of `vector_parser` from `cs_types.py`.  The source first
builds the composite record dtype `np.dtype([(k, registry[k]) for k in
file_dtypes])` — numpy rejects this with a `ValueError` when two columns
have the same dtype name, because the dtype NAMES are used as the record
field names — then reads the data region, raises `EOFError` when the read
returned the empty byte string (`if data_bytes == b'': raise EOFError`,
swallowed by the surrounding `except`, so the function yields nothing on
an empty region), and reinterprets the bytes with `np.frombuffer` (which
fails unless the byte count is a whole number of records; that failure is
swallowed the same way).  Every failure is modelled as `none`; on success
the result is the per-column list of decoded fields, column `i` of record
`r` sitting at byte offset `r * row_stride + offset(i)`. -/
def vectorParser (dtypes : List String) (data : List ℕ) : Option (List (List ℕ)) :=
  (dtypes.mapM npReadableWidth).bind fun ws =>
    if dtypes.Nodup then
      if data ≠ [] ∧ 0 < ws.sum ∧ data.length % ws.sum = 0 then
        some ((List.range dtypes.length).map fun i =>
          (List.range (data.length / ws.sum)).map fun r =>
            beWord (byteSlice data (r * ws.sum + (ws.take i).sum) (ws.getD i 0)))
      else none
    else none

/-- One row of the scalar (`nonvector`) path built by
`data_parser_factory`: successive `f.read(s)` calls, one per column
stride, starting at stream position `pos`. -/
def readRowCells (data : List ℕ) (pos : ℕ) : List ℕ → List (List ℕ)
  | [] => []
  | w :: ws => byteSlice data pos w :: readRowCells data (pos + w) ws

/-- The `frame_nrows` rows read sequentially by the scalar path. -/
def readRows (data : List ℕ) (ws : List ℕ) : ℕ → ℕ → List (List (List ℕ))
  | _, 0 => []
  | pos, n + 1 => readRowCells data pos ws :: readRows data ws (pos + ws.sum) n

/-- Embedding of the scalar row-by-row parser built by
`data_parser_factory` in `cs_types.py`, restricted to native columns (the
claim's premise): for each row it reads each column's `stride` bytes from
the stream in order and decodes them with the column's registry dtype; the
result is the per-column list of decoded values. -/
def nonvectorParser (ws : List ℕ) (data : List ℕ) (nrows : ℕ) : List (List ℕ) :=
  (List.range ws.length).map fun i =>
    (readRows data ws 0 nrows).map fun row => beWord (row.getD i [])

theorem mapM_npWidth_length {dtypes : List String} {ws : List ℕ}
    (h : dtypes.mapM npReadableWidth = some ws) : ws.length = dtypes.length := by
  induction dtypes generalizing ws with
  | nil =>
    rw [List.mapM_nil] at h
    simp only [Option.pure_def, Option.some.injEq] at h
    subst h
    rfl
  | cons d ds ih =>
    rw [List.mapM_cons] at h
    cases hw : npReadableWidth d with
    | none => rw [hw] at h; simp at h
    | some w =>
      rw [hw] at h
      cases hws : ds.mapM npReadableWidth with
      | none => rw [hws] at h; simp at h
      | some tail =>
        rw [hws] at h
        simp only [Option.bind_some, Option.pure_def, Option.bind_eq_bind,
          Option.some_bind, Option.some.injEq] at h
        subst h
        simp [ih hws]

theorem readRowCells_getD (data : List ℕ) :
    ∀ (ws : List ℕ) (i pos : ℕ), i < ws.length →
      (readRowCells data pos ws).getD i [] =
        byteSlice data (pos + (ws.take i).sum) (ws.getD i 0) := by
  intro ws
  induction ws with
  | nil => intro i pos h; simp at h
  | cons w ws ih =>
    intro i pos h
    cases i with
    | zero => simp [readRowCells]
    | succ j =>
      simp only [readRowCells, List.getD_cons_succ, List.take_succ_cons, List.sum_cons]
      rw [ih j (pos + w) (by simpa using h), Nat.add_assoc]

theorem readRows_eq_map (data : List ℕ) (ws : List ℕ) :
    ∀ (n pos : ℕ), readRows data ws pos n =
      (List.range n).map (fun r => readRowCells data (pos + r * ws.sum) ws) := by
  intro n
  induction n with
  | zero => intro pos; simp [readRows]
  | succ m ih =>
    intro pos
    rw [readRows, ih (pos + ws.sum), List.range_succ_eq_map]
    have harg : ∀ r : ℕ, pos + ws.sum + r * ws.sum = pos + (r + 1) * ws.sum := by
      intro r; ring
    simp only [List.map_cons, List.map_map, Nat.zero_mul, Nat.add_zero]
    congr 1
    simp only [Function.comp_def, harg]

/-- Claim C3 (counterexample): the two decode paths do NOT agree on every
all-native schema.  For the schema of two `IEEE4B` columns (the spec's own
scenario S1) the vector path fails — numpy rejects the record dtype whose
two field names are both "IEEE4B" — while the scalar path decodes the
16-byte data region into two columns. -/
theorem vector_scalar_disagree_duplicate :
    vectorParser ["IEEE4B", "IEEE4B"]
        [0, 0, 0, 1, 0, 0, 0, 2, 0, 0, 0, 3, 0, 0, 0, 4] = none ∧
      nonvectorParser [4, 4]
        [0, 0, 0, 1, 0, 0, 0, 2, 0, 0, 0, 3, 0, 0, 0, 4] 2 = [[1, 3], [2, 4]] := by
  exact ⟨by decide, by decide⟩

/-- Claim C3 (amended): for every schema whose column dtypes are all
native numerics AND pairwise distinct, and every NONEMPTY data region of
the correct byte length (a positive number of rows), the vector decode
path and the scalar row-by-row decode path produce value-for-value
identical column arrays.  (The distinctness proviso is forced by the
source building the numpy record dtype with the dtype names as field
names; the nonemptiness proviso by the vector path raising `EOFError` on
an empty read while the scalar path would decode empty columns.) -/
theorem vector_scalar_agree (dtypes : List String) (ws : List ℕ) (data : List ℕ)
    (nrows : ℕ) (hws : dtypes.mapM npReadableWidth = some ws)
    (hnodup : dtypes.Nodup) (hpos : 0 < ws.sum) (hrows : 0 < nrows)
    (hlen : data.length = nrows * ws.sum) :
    vectorParser dtypes data = some (nonvectorParser ws data nrows) := by
  have hlength : ws.length = dtypes.length := mapM_npWidth_length hws
  have hne : data ≠ [] := by
    rw [← List.length_pos]
    rw [hlen]
    exact Nat.mul_pos hrows hpos
  unfold vectorParser nonvectorParser
  rw [hws, Option.some_bind]
  rw [if_pos hnodup,
    if_pos ⟨hne, hpos, by rw [hlen]; exact Nat.mul_mod_left nrows ws.sum⟩]
  congr 1
  rw [hlen, Nat.mul_div_cancel nrows hpos, ← hlength]
  apply List.map_congr_left
  intro i hi
  rw [List.mem_range] at hi
  rw [readRows_eq_map, List.map_map]
  apply List.map_congr_left
  intro r _
  simp only [Function.comp_def]
  rw [readRowCells_getD data ws i (0 + r * ws.sum) hi]
  simp [Nat.zero_add]

/-- Claim C3 (witness): the agreement theorem applied to the two-column
schema `[IEEE4B, UINT2]` (row stride 6) with a concrete 12-byte,
two-record data region. -/
theorem vector_scalar_agree_witness :
    ((["IEEE4B", "UINT2"].mapM npReadableWidth = some [4, 2]) ∧
      (["IEEE4B", "UINT2"] : List String).Nodup ∧ 0 < ([4, 2] : List ℕ).sum ∧
      (0 : ℕ) < 2 ∧
      ([0, 0, 0, 1, 0, 2, 0, 0, 0, 3, 0, 4] : List ℕ).length = 2 * ([4, 2] : List ℕ).sum) ∧
      vectorParser ["IEEE4B", "UINT2"] [0, 0, 0, 1, 0, 2, 0, 0, 0, 3, 0, 4] =
        some (nonvectorParser [4, 2] [0, 0, 0, 1, 0, 2, 0, 0, 0, 3, 0, 4] 2) :=
  ⟨⟨by decide, by decide, by decide, by decide, by decide⟩,
    vector_scalar_agree ["IEEE4B", "UINT2"] [4, 2] [0, 0, 0, 1, 0, 2, 0, 0, 0, 3, 0, 4] 2
      (by decide) (by decide) (by decide) (by decide) (by decide)⟩

/-! ### `camp2ascii.py`: the frame loop and table compilation -/

/-- Element-type tag of a decoded column array, as the dtype filter of
`compile_to_dataframe` distinguishes them: `np.datetime64`, `np.str_`
(unicode) and the generic `object` dtype are excluded from the stacked
data arrays, while numeric and byte-string (`|S`) dtypes pass the filter. -/
inductive ColKind where
  | numeric
  | datetime
  | unicodeStr
  | bytestr
  | pyobject
deriving DecidableEq

/-- One decoded column array of one frame: its name, its element kind and
its cells (cell values abstracted as integers). -/
structure Column where
  name : String
  kind : ColKind
  vals : List ℤ
deriving DecidableEq

/-- One complete binary frame as `parse_whole_frame` delivers it.
Modelled from the spec: `CampbellFile.parse_whole_frame` (and the frame
count `csfile._nframes`) are called by `camp2ascii` but absent from the
source; per spec section 4.4 the whole-frame parse reads the frame header
(`CampbellFile.parse_frame_header`, which raises `EOFError` on a zero-byte
read), decodes the data region, consumes the footer, and yields the header
timestamp (`reported`, nanoseconds from the 1990 epoch), the TOB3 header
record number (`recnum`, absent for TOB2) and the decoded sensor columns;
a short read inside the frame likewise surfaces as `EOFError`.  A stream
is therefore modelled as the list of its complete frames, and any read
past them raises `EOFError`. -/
structure RawFrame where
  reported : ℤ
  recnum : Option ℤ
  cols : List Column
deriving DecidableEq

/-- The Python dict holding one frame inside the loop of `camp2ascii`:
the decoded sensor columns, plus `TIMESTAMP` and `RECORD` entries once
(and only once) the loop body has synthesised them. -/
structure FrameDict where
  cols : List Column
  ts : Option (List ℤ)
  record : Option (List ℤ)
deriving DecidableEq

/-- The dict produced for a parsed frame by the loop body of `camp2ascii`:
the frame's columns plus
`TIMESTAMP = date_range(t_start, freq=dt, periods=frame_nrows)` and, when
the frame carries a record number,
`RECORD = arange(recnum_start, recnum_start + frame_nrows)`. -/
def mkFrameDict (f : RawFrame) (tStart dt : ℤ) (nrows : ℕ) : FrameDict :=
  { cols := f.cols,
    ts := some ((List.range nrows).map fun (k : ℕ) => tStart + (k : ℤ) * dt),
    record := f.recnum.map fun r0 => (List.range nrows).map fun (k : ℕ) => r0 + (k : ℤ) }

/-- The frame loop of `camp2ascii` (`for framenum in pbar:`), one
iteration per slot of the preallocated `frames` list.  Arguments: the
`frames` list (initially `nframes` references to the first frame's
template dict), the loop index `framenum`, the remaining iteration count,
the unconsumed complete frames of the stream, and the reference clock
`t_start`.  Returns the final `frames` list together with a flag telling
whether the `except (EOFError, IndexError)` handler ran (the source then
warns and falls through to `compile_to_dataframe`, exactly like the
normal exit).  Per iteration the source parses the next frame (`EOFError`
when the stream is exhausted), advances `t_start` by
`frame_nrows * dt`, then checks clock drift against
`frames[framenum - 1]["TIMESTAMP"][0]` — Python's `frames[-1]`, the LAST
slot, when `framenum = 0`; a missing list index raises `IndexError` into
the outer handler while a missing `TIMESTAMP` key is swallowed
(`except KeyError: pass`).  When
`abs(candidate - last) > frame_nrows*dt*framenum*1.1` the reference clock
is reset to the frame's reported timestamp (the float literal `1.1` is
modelled as the exact rational 11/10).  Finally the synthesised dict is
stored at slot `framenum`. -/
def loopAux (dt : ℤ) (nrows : ℕ) :
    List FrameDict → ℕ → ℕ → List RawFrame → ℤ → List FrameDict × Bool
  | frames, _, 0, _, _ => (frames, false)
  | frames, _, _ + 1, [], _ => (frames, true)
  | frames, framenum, r + 1, f :: rest, tStart =>
    match frames.get? (if framenum = 0 then frames.length - 1 else framenum - 1) with
    | none => (frames, true)
    | some prev =>
      match prev.ts with
      | none =>
        loopAux dt nrows (frames.set framenum (mkFrameDict f (tStart + nrows * dt) dt nrows))
          (framenum + 1) r rest (tStart + nrows * dt)
      | some tsl =>
        match tsl.head? with
        | none => (frames, true)
        | some last =>
          loopAux dt nrows
            (frames.set framenum (mkFrameDict f
              (if 10 * ((f.reported - last).natAbs : ℤ) > 11 * (nrows : ℤ) * dt * (framenum : ℤ)
                then f.reported else tStart + nrows * dt) dt nrows))
            (framenum + 1) r rest
            (if 10 * ((f.reported - last).natAbs : ℤ) > 11 * (nrows : ℤ) * dt * (framenum : ℤ)
              then f.reported else tStart + nrows * dt)

/-- The TOB branch of `camp2ascii` with the default `nlines=None`: parse
the first frame BEFORE the `try` block (an `EOFError` there is uncaught
and fatal, hence `none`), copy its dict as the template that prefills the
`frames` list of length `nframes`, initialise `t_start` with the first
frame's header timestamp, and run the loop over the remaining stream. -/
def camp2ascii_run (dt : ℤ) (nrows nframes : ℕ) (stream : List RawFrame) :
    Option (List FrameDict × Bool) :=
  match stream with
  | [] => none
  | f0 :: rest =>
    loopAux dt nrows (List.replicate nframes ⟨f0.cols, none, none⟩) 0 nframes rest f0.reported

/-- The output table of `compile_to_dataframe`: the stacked sensor
columns, the concatenated `TIMESTAMP` column and the optional
concatenated `RECORD` column. -/
structure CompiledTable where
  colNames : List String
  colVals : List (List ℤ)
  timestamps : List ℤ
  records : Option (List ℤ)
deriving DecidableEq

/-- `np.concatenate([frame[col] for frame in all_data])` for one column
name; `none` models the `KeyError` raised when some frame's dict lacks
that name. -/
def concatColumn (all_data : List FrameDict) (cname : String) : Option (List ℤ) :=
  (all_data.mapM fun (d : FrameDict) =>
    (d.cols.find? fun c => c.name == cname).map Column.vals).map List.flatten

/-- Embedding of `compile_to_dataframe` from `camp2ascii.py`.  The source
takes `columns = list(all_data[0].keys())`, removes `TIMESTAMP` (and
`RECORD` when present), concatenates each column across the frames but
KEEPS a column's arrays only when its dtype in the first frame is not
datetime64/str/object, then builds
`DataFrame(np.stack(arrays, axis=1), columns=columns)` and assigns the
concatenated `TIMESTAMP` (and `RECORD`) columns.  Every exception is
fatal to the caller and is modelled as `none`:
`all_data[0]` on an empty list (`IndexError`); `columns.remove` when the
first dict has no `TIMESTAMP` key (`ValueError`); a frame missing a kept
column name or the `TIMESTAMP` — or, when the first dict has one, the
`RECORD` — key (`KeyError`); `np.stack` on an empty or ragged array list
(`ValueError`); the `DataFrame` constructor when the number of stacked
arrays differs from the number of retained column names, which happens
precisely when the dtype filter dropped a column (`ValueError`); and a
`TIMESTAMP`/`RECORD` assignment whose length differs from the stacked
row count (`ValueError`). -/
def compile_to_dataframe (all_data : List FrameDict) : Option CompiledTable :=
  match all_data with
  | [] => none
  | d0 :: _ =>
    if d0.ts.isNone then none
    else
      match ((d0.cols.filter fun c =>
          !(c.kind == ColKind.datetime || c.kind == ColKind.unicodeStr ||
            c.kind == ColKind.pyobject)).map Column.name).mapM (concatColumn all_data) with
      | none => none
      | some arrays =>
        match all_data.mapM FrameDict.ts with
        | none => none
        | some tss =>
          match arrays.head? with
          | none => none
          | some a0 =>
            if arrays.all fun a => a.length = a0.length then
              if ((d0.cols.filter fun c =>
                  !(c.kind == ColKind.datetime || c.kind == ColKind.unicodeStr ||
                    c.kind == ColKind.pyobject)).map Column.name).length =
                  (d0.cols.map Column.name).length then
                if tss.flatten.length = a0.length then
                  match d0.record with
                  | none =>
                    some ⟨d0.cols.map Column.name, arrays, tss.flatten, none⟩
                  | some _ =>
                    match all_data.mapM FrameDict.record with
                    | none => none
                    | some recs =>
                      if recs.flatten.length = a0.length then
                        some ⟨d0.cols.map Column.name, arrays, tss.flatten, some recs.flatten⟩
                      else none
                else none
              else none
            else none

/-- The full binary pipeline of `camp2ascii`: run the frame loop and
compile the resulting dict list (both the normal exit and the
`except (EOFError, IndexError)` path end in `compile_to_dataframe`);
`none` is any uncaught exception. -/
def camp2ascii_table (dt : ℤ) (nrows nframes : ℕ) (stream : List RawFrame) :
    Option CompiledTable :=
  (camp2ascii_run dt nrows nframes stream).bind fun p => compile_to_dataframe p.1

/-! ### Helper lemmas for the frame-loop theorems -/

theorem range_map_arith (t0 dt : ℤ) (n : ℕ) :
    (0 < dt → ((List.range n).map (fun (k : ℕ) => t0 + (k : ℤ) * dt)).Chain' (· < ·)) ∧
      ∀ i : ℕ, i + 1 < ((List.range n).map (fun (k : ℕ) => t0 + (k : ℤ) * dt)).length →
        ((List.range n).map (fun (k : ℕ) => t0 + (k : ℤ) * dt)).getD (i + 1) 0 -
          ((List.range n).map (fun (k : ℕ) => t0 + (k : ℤ) * dt)).getD i 0 = dt := by
  constructor
  · intro hdt
    apply List.Pairwise.chain'
    apply List.Pairwise.map (fun (k : ℕ) => t0 + (k : ℤ) * dt) ?_ (List.pairwise_lt_range n)
    intro a b hab
    have hab' : (a : ℤ) < (b : ℤ) := by exact_mod_cast hab
    exact add_lt_add_left (mul_lt_mul_of_pos_right hab' hdt) t0
  · intro i hi
    rw [List.length_map, List.length_range] at hi
    have h1 : ((List.range n).map (fun (k : ℕ) => t0 + (k : ℤ) * dt)).getD (i + 1) 0 =
        t0 + ((i : ℤ) + 1) * dt := by
      rw [List.getD_eq_getElem?_getD, List.getElem?_map, List.getElem?_range hi]
      simp
    have h2 : ((List.range n).map (fun (k : ℕ) => t0 + (k : ℤ) * dt)).getD i 0 =
        t0 + (i : ℤ) * dt := by
      rw [List.getD_eq_getElem?_getD, List.getElem?_map, List.getElem?_range (by omega)]
      simp
    rw [h1, h2]
    ring

theorem loopAux_ts_shape (dt : ℤ) (nrows : ℕ) (remaining : ℕ) :
    ∀ (frames : List FrameDict) (framenum : ℕ) (stream : List RawFrame) (tStart : ℤ),
      (∀ d ∈ frames, ∀ l, d.ts = some l →
        ∃ t0 : ℤ, l = (List.range nrows).map (fun (k : ℕ) => t0 + (k : ℤ) * dt)) →
      ∀ d ∈ (loopAux dt nrows frames framenum remaining stream tStart).1, ∀ l,
        d.ts = some l →
          ∃ t0 : ℤ, l = (List.range nrows).map (fun (k : ℕ) => t0 + (k : ℤ) * dt) := by
  induction remaining with
  | zero =>
    intro frames framenum stream tStart hinv
    simpa [loopAux] using hinv
  | succ r ih =>
    intro frames framenum stream tStart hinv
    match stream with
    | [] => simpa [loopAux] using hinv
    | f :: rest =>
      have hset : ∀ t : ℤ, ∀ d ∈ frames.set framenum (mkFrameDict f t dt nrows), ∀ l,
          d.ts = some l →
            ∃ t0 : ℤ, l = (List.range nrows).map (fun (k : ℕ) => t0 + (k : ℤ) * dt) := by
        intro t d hd l hl
        rcases List.mem_or_eq_of_mem_set hd with h | h
        · exact hinv d h l hl
        · subst h
          simp only [mkFrameDict, Option.some.injEq] at hl
          exact ⟨t, hl.symm⟩
      rw [loopAux]
      split
      · simpa using hinv
      · split
        · exact ih _ _ _ _ (hset _)
        · split
          · simpa using hinv
          · exact ih _ _ _ _ (hset _)

/-! ### Claim C6: timestamp monotonicity -/

/-- Claim C6 (counterexample): the emitted `TIMESTAMP` column is NOT
always strictly monotone with constant step `sample_interval`.  With
`dt = 1`, one row per frame and `nframes = 2`, a stream whose third
frame reports a far-future header timestamp (1000) trips the active
clock-drift reset, so the emitted table's `TIMESTAMP` column is
`[1, 1000]`: the step between consecutive rows is 999, not the sample
interval 1. -/
theorem timestamps_constant_step_counterexample :
    camp2ascii_table 1 1 2
        [⟨0, none, [⟨"u", ColKind.numeric, [10]⟩]⟩,
          ⟨100, none, [⟨"u", ColKind.numeric, [20]⟩]⟩,
          ⟨1000, none, [⟨"u", ColKind.numeric, [30]⟩]⟩] =
      some ⟨["u"], [[20, 30]], [1, 1000], none⟩ ∧
      ¬((1000 : ℤ) - 1 = 1) :=
  ⟨by decide, by decide⟩

/-- Claim C6 (amended): within each frame of any loop output the
synthesised per-row timestamps are `reference_clock + k * sample_interval`
for `k = 0 .. frame_nrows - 1` — hence, for a positive sample interval,
strictly monotonically increasing with constant step exactly
`sample_interval` WITHIN the frame; across frames the step is the sample
interval only while the clock-drift reset does not fire. -/
theorem timestamps_within_frame (dt : ℤ) (nrows nframes : ℕ) (stream : List RawFrame)
    (res : List FrameDict × Bool) (hrun : camp2ascii_run dt nrows nframes stream = some res)
    (d : FrameDict) (hd : d ∈ res.1) (l : List ℤ) (hl : d.ts = some l) :
    ∃ t0 : ℤ, l = (List.range nrows).map (fun (k : ℕ) => t0 + (k : ℤ) * dt) ∧
      (0 < dt → l.Chain' (· < ·)) ∧
      ∀ i : ℕ, i + 1 < l.length → l.getD (i + 1) 0 - l.getD i 0 = dt := by
  match stream with
  | [] => simp [camp2ascii_run] at hrun
  | f0 :: rest =>
    simp only [camp2ascii_run, Option.some.injEq] at hrun
    subst hrun
    have hinv : ∀ d' ∈ List.replicate nframes (⟨f0.cols, none, none⟩ : FrameDict), ∀ l',
        d'.ts = some l' →
          ∃ t0 : ℤ, l' = (List.range nrows).map (fun (k : ℕ) => t0 + (k : ℤ) * dt) := by
      intro d' hd' l' hl'
      rw [List.eq_of_mem_replicate hd'] at hl'
      simp at hl'
    obtain ⟨t0, ht0⟩ :=
      loopAux_ts_shape dt nrows nframes _ 0 rest f0.reported hinv d hd l hl
    subst ht0
    exact ⟨t0, rfl, (range_map_arith t0 dt nrows).1, (range_map_arith t0 dt nrows).2⟩

/-- Claim C6 (witness): the within-frame theorem applied to a concrete
run — `dt = 1`, two rows per frame, one loop slot — whose single emitted
frame dict carries the timestamp column `[2, 3]`. -/
theorem timestamps_within_frame_witness :
    (camp2ascii_run 1 2 1
        [⟨0, none, [⟨"w", ColKind.numeric, [4, 5]⟩]⟩,
          ⟨7, none, [⟨"w", ColKind.numeric, [6, 8]⟩]⟩] =
      some ([⟨[⟨"w", ColKind.numeric, [6, 8]⟩], some [2, 3], none⟩], false) ∧
      (⟨[⟨"w", ColKind.numeric, [6, 8]⟩], some [2, 3], none⟩ : FrameDict) ∈
        [(⟨[⟨"w", ColKind.numeric, [6, 8]⟩], some [2, 3], none⟩ : FrameDict)] ∧
      (⟨[⟨"w", ColKind.numeric, [6, 8]⟩], some [2, 3], none⟩ : FrameDict).ts =
        some [2, 3]) ∧
      ∃ t0 : ℤ, ([2, 3] : List ℤ) = (List.range 2).map (fun (k : ℕ) => t0 + (k : ℤ) * 1) ∧
        ((0 : ℤ) < 1 → ([2, 3] : List ℤ).Chain' (· < ·)) ∧
        ∀ i : ℕ, i + 1 < ([2, 3] : List ℤ).length →
          ([2, 3] : List ℤ).getD (i + 1) 0 - ([2, 3] : List ℤ).getD i 0 = 1 :=
  ⟨⟨by decide, by decide, by decide⟩,
    timestamps_within_frame 1 2 1
      [⟨0, none, [⟨"w", ColKind.numeric, [4, 5]⟩]⟩,
        ⟨7, none, [⟨"w", ColKind.numeric, [6, 8]⟩]⟩]
      ([⟨[⟨"w", ColKind.numeric, [6, 8]⟩], some [2, 3], none⟩], false) (by decide)
      ⟨[⟨"w", ColKind.numeric, [6, 8]⟩], some [2, 3], none⟩ (by decide) [2, 3] rfl⟩

/-! ### Claim C7: completeness of the emitted table -/

/-- Claim C7 (code evaluated at the failing input): on a COMPLETE file of
`nframes = 2` frames (one row each, `intended_table_size = 2`) the
pipeline returns no table at all: the loop consumes the first frame as a
mere template, hits `EOFError` parsing past the end, and the `except`
path then dies with a `KeyError` because the unfilled template slot has
no `TIMESTAMP` key.  With a third frame appended the loop completes, but
the emitted table holds only the SECOND and THIRD frames' rows
(`[20, 30]`): the first frame's decoded row (value 10) appears nowhere,
refuting both the exact-size and the every-frame-exactly-once parts of
the claim. -/
theorem first_frame_dropped_bug :
    camp2ascii_table 1 1 2
        [⟨0, none, [⟨"a", ColKind.numeric, [10]⟩]⟩,
          ⟨1, none, [⟨"a", ColKind.numeric, [20]⟩]⟩] = none ∧
      camp2ascii_table 1 1 2
        [⟨0, none, [⟨"a", ColKind.numeric, [10]⟩]⟩,
          ⟨1, none, [⟨"a", ColKind.numeric, [20]⟩]⟩,
          ⟨2, none, [⟨"a", ColKind.numeric, [30]⟩]⟩] =
        some ⟨["a"], [[20, 30]], [1, 2], none⟩ :=
  ⟨by decide, by decide⟩

/-! ### Claim C8: truncation handling -/

/-- Claim C8 (code evaluated at the failing input): a read failure after
one complete frame (here: `nframes = 2` but only the first frame present,
any further read raising `EOFError`) does reach the warning path — the
flag in the loop result is `true` — but the decoded rows of the complete
first frame are NOT returned: `compile_to_dataframe` receives two copies
of the template dict, neither holding a `TIMESTAMP` key, and dies with an
uncaught exception (`none`), so the caller gets a fatal error and zero
rows; the same happens for a clean EOF at a frame boundary. -/
theorem truncation_flush_bug :
    camp2ascii_run 1 1 2 [⟨0, none, [⟨"b", ColKind.numeric, [7]⟩]⟩] =
      some ([⟨[⟨"b", ColKind.numeric, [7]⟩], none, none⟩,
        ⟨[⟨"b", ColKind.numeric, [7]⟩], none, none⟩], true) ∧
      camp2ascii_table 1 1 2 [⟨0, none, [⟨"b", ColKind.numeric, [7]⟩]⟩] = none :=
  ⟨by decide, by decide⟩

/-! ### Claim C9: the clock-drift policy -/

/-- Claim C9 (counterexample): the clock-drift reset is NOT disabled in
the source.  With `dt = 2`, one row per frame, a stream whose third frame
reports header time 500 while the reference clock stands at 4, the
threshold `10*|500 - 2| > 11*1*2*1` fires and the emitted second frame
starts at the REPORTED clock 500 — not at `2 + 1*2 = 4`, which
advance-by-frame-duration-only behaviour would give. -/
theorem clock_resync_counterexample :
    camp2ascii_table 2 1 2
        [⟨0, none, [⟨"v", ColKind.numeric, [1]⟩]⟩,
          ⟨50, none, [⟨"v", ColKind.numeric, [2]⟩]⟩,
          ⟨500, none, [⟨"v", ColKind.numeric, [3]⟩]⟩] =
      some ⟨["v"], [[2, 3]], [2, 500], none⟩ ∧ (500 : ℤ) ≠ 2 + 1 * 2 :=
  ⟨by decide, by decide⟩

/-- Claim C9 (amended): the clock-drift policy is ACTIVE in the source,
not disabled: at every loop index `framenum ≥ 1` whose previous slot
holds a dict with a first timestamp `last`, the loop step warns and
resets the reference clock to the frame's reported header timestamp
exactly when `|reported - last| > 1.1 * frame_duration * framenum`
(modelled as `10*|reported - last| > 11*nrows*dt*framenum`), and
otherwise advances it by the frame duration `nrows * dt`; the frame's
dict is synthesised from that updated clock. -/
theorem clock_drift_policy_active (dt : ℤ) (nrows : ℕ) (frames : List FrameDict)
    (framenum r : ℕ) (f : RawFrame) (rest : List RawFrame) (tStart : ℤ)
    (prev : FrameDict) (tsl : List ℤ) (last : ℤ) (hfn : framenum ≠ 0)
    (hprev : frames.get? (framenum - 1) = some prev)
    (hts : prev.ts = some tsl) (hhead : tsl.head? = some last) :
    loopAux dt nrows frames framenum (r + 1) (f :: rest) tStart =
      loopAux dt nrows
        (frames.set framenum (mkFrameDict f
          (if 10 * ((f.reported - last).natAbs : ℤ) > 11 * (nrows : ℤ) * dt * (framenum : ℤ)
            then f.reported else tStart + nrows * dt) dt nrows))
        (framenum + 1) r rest
        (if 10 * ((f.reported - last).natAbs : ℤ) > 11 * (nrows : ℤ) * dt * (framenum : ℤ)
          then f.reported else tStart + nrows * dt) := by
  conv_lhs => rw [loopAux]
  rw [if_neg hfn, hprev]
  simp only [hts, hhead]

/-- Claim C9 (witness): the policy-step theorem applied at loop index 1
with previous frame start 5 and reported clock 900: the drift
`10*|900 - 5| = 8950` exceeds `11*1*1*1`, so the slot is filled with a
dict starting at the reported clock 900 and the loop continues with
reference clock 900. -/
theorem clock_drift_policy_active_witness :
    ((1 : ℕ) ≠ 0 ∧
      ([⟨[], some [5], none⟩, ⟨[], none, none⟩] : List FrameDict).get? (1 - 1) =
        some ⟨[], some [5], none⟩ ∧
      (⟨[], some [5], none⟩ : FrameDict).ts = some [5] ∧
      ([5] : List ℤ).head? = some 5) ∧
      loopAux 1 1 [⟨[], some [5], none⟩, ⟨[], none, none⟩] 1 1 [⟨900, none, []⟩] 5 =
        loopAux 1 1 [⟨[], some [5], none⟩, mkFrameDict ⟨900, none, []⟩ 900 1 1]
          2 0 [] 900 :=
  ⟨⟨by decide, by decide, by decide, by decide⟩,
    clock_drift_policy_active 1 1 [⟨[], some [5], none⟩, ⟨[], none, none⟩] 1 0
      ⟨900, none, []⟩ [] 5 ⟨[], some [5], none⟩ [5] 5
      (by decide) (by decide) (by decide) (by decide)⟩

/-! ### Claim C10: column filtering in `compile_to_dataframe` -/

/-- Claim C10 (counterexample): a datetime-typed column is NOT silently
omitted.  A single frame dict with one numeric column and one datetime
column compiles to nothing at all (the filter drops the datetime arrays
but its name stays in `columns`, so the `DataFrame` construction fails),
while the same dict without the datetime column compiles fine. -/
theorem typed_column_crash_counterexample :
    compile_to_dataframe
        [⟨[⟨"x", ColKind.numeric, [1]⟩, ⟨"t", ColKind.datetime, [7]⟩], some [0], none⟩] =
      none ∧
      compile_to_dataframe [⟨[⟨"x", ColKind.numeric, [1]⟩], some [0], none⟩] =
        some ⟨["x"], [[1]], [0], none⟩ :=
  ⟨by decide, by decide⟩

/-- Claim C10 (amended): whenever the first frame dict holds any column
whose element type is datetime, unicode-string or generic object,
`compile_to_dataframe` returns no table at all: the dtype filter removes
the column from the stacked arrays but keeps its name in the column list,
so the `DataFrame` construction (or an earlier step) raises instead of
silently omitting the column. -/
theorem compile_drops_typed_column (d0 : FrameDict) (rest : List FrameDict) (c : Column)
    (hc : c ∈ d0.cols)
    (hk : c.kind = ColKind.datetime ∨ c.kind = ColKind.unicodeStr ∨
      c.kind = ColKind.pyobject) :
    compile_to_dataframe (d0 :: rest) = none := by
  have hflt : ((d0.cols.filter fun c =>
      !(c.kind == ColKind.datetime || c.kind == ColKind.unicodeStr ||
        c.kind == ColKind.pyobject)).map Column.name).length <
      (d0.cols.map Column.name).length := by
    simp only [List.length_map]
    refine List.length_filter_lt_length_iff_exists.mpr ⟨c, hc, ?_⟩
    rcases hk with h | h | h <;> simp [h]
  simp only [compile_to_dataframe]
  split
  · rfl
  · split
    · rfl
    · split
      · rfl
      · split
        · rfl
        · split
          · split
            · omega
            · rfl
          · rfl

/-- Claim C10 (witness): the amended theorem applied to a dict holding a
numeric column and a datetime column (the latter named "t"): compilation
yields no table. -/
theorem compile_drops_typed_column_witness :
    ((⟨"t", ColKind.datetime, [7, 9]⟩ : Column) ∈
        ([⟨"y", ColKind.numeric, [1, 2]⟩, ⟨"t", ColKind.datetime, [7, 9]⟩] : List Column) ∧
      ((⟨"t", ColKind.datetime, [7, 9]⟩ : Column).kind = ColKind.datetime ∨
        (⟨"t", ColKind.datetime, [7, 9]⟩ : Column).kind = ColKind.unicodeStr ∨
        (⟨"t", ColKind.datetime, [7, 9]⟩ : Column).kind = ColKind.pyobject)) ∧
      compile_to_dataframe
        [⟨[⟨"y", ColKind.numeric, [1, 2]⟩, ⟨"t", ColKind.datetime, [7, 9]⟩],
          some [0, 1], none⟩] = none :=
  ⟨⟨by decide, Or.inl (by decide)⟩,
    compile_drops_typed_column
      ⟨[⟨"y", ColKind.numeric, [1, 2]⟩, ⟨"t", ColKind.datetime, [7, 9]⟩], some [0, 1], none⟩
      [] ⟨"t", ColKind.datetime, [7, 9]⟩ (by decide) (Or.inl (by decide))⟩
